import Mathlib

/-!
Shallow embedding of the core of the polyWantsACracker trading bot:
the Kelly risk sizer and position ledger (`src/risk_manager.py`),
the BTC price-crossing probability model (`src/btc_strategy.py`),
and the weather threshold-crossing models (`src/weather_strategy.py`).

Python floats are modelled as exact rationals (ℚ); the
`round(x, 2)` is modelled as exact round-half-to-even at two decimals.
Host-library primitives with irrational values (`scipy.stats.norm.cdf`,
`np.sqrt`) are taken as parameters, so theorems about clamped outputs
hold for every possible value those primitives return.
-/

namespace Polly

/-! ## Configuration constants (src/config.py) -/

def KELLY_FRACTION : ℚ := 1/2
def MAX_SINGLE_BET_PCT : ℚ := 1/20
def MIN_EDGE_THRESHOLD : ℚ := 3/100
def MAX_OPEN_POSITIONS : Nat := 10
def MIN_BET_SIZE_USD : ℚ := 1
def BTC_RSI_OVERSOLD : ℚ := 30
def BTC_RSI_OVERBOUGHT : ℚ := 70

/-! ## Numeric helpers mirroring Python / numpy primitives -/

/-- `np.clip(x, lo, hi)`. -/
def npClip (x lo hi : ℚ) : ℚ := max lo (min hi x)

/-- Round a rational to the nearest integer, ties to even
(the rounding used by the Python builtin `round`). -/
def roundHalfEven (q : ℚ) : ℤ :=
  let f := ⌊q⌋
  let r := q - f
  if r < 1/2 then f
  else if r > 1/2 then f + 1
  else if f % 2 = 0 then f else f + 1

/-- The Python `round(x, 2)`: round to two decimal places, ties to even. -/
def pyRound2 (x : ℚ) : ℚ := (roundHalfEven (100 * x) : ℚ) / 100

/-- Python slice `l[-n:]` for `n ≥ 0`: with `n = 0` the slice is the whole
list (since `l[-0:] == l[0:]`), otherwise the last `min n (length l)`
elements. -/
def lastSlice (n : Nat) (l : List α) : List α :=
  if n = 0 then l else l.drop (l.length - n)

/-- `np.mean` over a list of rationals (0 on the empty list, where numpy
would give NaN; all theorems below avoid that corner). -/
def npMean (l : List ℚ) : ℚ := l.sum / l.length

/-! ## Kelly criterion (RiskManager.kelly_size, src/risk_manager.py:56-89) -/

/-- `RiskManager.kelly_size(our_prob, market_prob, fraction)`. -/
def kelly_size (our_prob market_prob : ℚ) (fraction : ℚ := KELLY_FRACTION) : ℚ :=
  if market_prob ≤ 0 ∨ market_prob ≥ 1 ∨ our_prob ≤ 0 ∨ our_prob ≥ 1 then 0
  else
    let b := 1 / market_prob - 1
    if b ≤ 0 then 0
    else
      let p := our_prob
      let q := 1 - p
      let kelly_full := (p * b - q) / b
      if kelly_full ≤ 0 then 0
      else kelly_full * fraction

/-! ## Position ledger data model (src/risk_manager.py) -/

/-- The `Position` dataclass (src/risk_manager.py:19-39). -/
structure Position where
  market_id : String
  market_question : String
  token_id : String
  side : String
  entry_price : ℚ
  size_usd : ℚ
  shares : ℚ
  our_probability : ℚ
  market_probability : ℚ
  edge : ℚ
  kelly_fraction : ℚ
  strategy : String
  reasoning : String
  timestamp : String
  status : String
deriving DecidableEq, Repr

/-- A `trade_history` entry appended by `close_position`
(src/risk_manager.py:176-184). -/
structure CloseRecord where
  reason : String
  exit_price : ℚ
  pnl : ℚ
  position : Position
  timestamp : String
deriving DecidableEq, Repr

/-- The mutable state of a `RiskManager`: `bankroll`, `positions`,
`trade_history` (src/risk_manager.py:48-52). -/
structure RMState where
  bankroll : ℚ
  positions : List Position
  trade_history : List CloseRecord
deriving DecidableEq, Repr

/-- Arguments of `RiskManager.open_position` (src/risk_manager.py:139-142),
together with the timestamp the dataclass stamps at creation. -/
structure OpenArgs where
  market_id : String
  market_question : String
  token_id : String
  side : String
  entry_price : ℚ
  size_usd : ℚ
  our_prob : ℚ
  market_prob : ℚ
  strategy : String
  reasoning : String
  timestamp : String
deriving DecidableEq, Repr

/-- The `Position` record built by `open_position`
(src/risk_manager.py:144-162): shares = size/entry (0 if entry ≤ 0),
edge = our − market, kelly fraction recomputed at default fraction. -/
def mkPosition (a : OpenArgs) : Position :=
  { market_id := a.market_id
    market_question := a.market_question
    token_id := a.token_id
    side := a.side
    entry_price := a.entry_price
    size_usd := a.size_usd
    shares := if a.entry_price > 0 then a.size_usd / a.entry_price else 0
    our_probability := a.our_prob
    market_probability := a.market_prob
    edge := a.our_prob - a.market_prob
    kelly_fraction := kelly_size a.our_prob a.market_prob
    strategy := a.strategy
    reasoning := a.reasoning
    timestamp := a.timestamp
    status := "open" }

/-- `RiskManager.open_position` (src/risk_manager.py:139-168): appends the
new position and debits the bankroll by the stake. -/
def open_position (s : RMState) (a : OpenArgs) : RMState :=
  { s with
    positions := s.positions ++ [mkPosition a]
    bankroll := s.bankroll - a.size_usd }

/-- `RiskManager.close_position` (src/risk_manager.py:170-187), with the
position identified by its index in `positions`: sets status to closed,
credits the bankroll by stake + pnl, appends a close record. A call with
an out-of-range index leaves the state unchanged (in Python the caller
always passes an element of `self.positions`). -/
def close_position (s : RMState) (idx : Nat) (exit_price pnl : ℚ)
    (reason now : String) : RMState :=
  match s.positions.get? idx with
  | none => s
  | some p =>
    let closed := { p with status := "closed" }
    { bankroll := s.bankroll + p.size_usd + pnl
      positions := s.positions.set idx closed
      trade_history := s.trade_history ++
        [{ reason := reason, exit_price := exit_price, pnl := pnl,
           position := closed, timestamp := now }] }

/-- `RiskManager.calculate_bet_size` (src/risk_manager.py:93-135) as a
state transformer: it returns `(bet_size_usd, kelly_fraction,
rejection_reason)` together with the `RiskManager` state after the call.
Every statement of the method body only reads `self`, so each branch
returns the incoming state. The rejection strings are abbreviated; the
strings in the code are interpolated f-strings, non-empty exactly when these are. -/
def calculate_bet_size (s : RMState) (our_prob market_prob : ℚ) :
    (ℚ × ℚ × String) × RMState :=
  let edge := our_prob - market_prob
  if edge < MIN_EDGE_THRESHOLD then ((0, 0, "Edge below threshold"), s)
  else
    let kf := kelly_size our_prob market_prob
    if kf ≤ 0 then ((0, 0, "Kelly says do not bet (negative EV)"), s)
    else
      let bet_usd := s.bankroll * kf
      let max_bet := s.bankroll * MAX_SINGLE_BET_PCT
      let bet_usd := if bet_usd > max_bet then max_bet else bet_usd
      if bet_usd < MIN_BET_SIZE_USD then ((0, kf, "Bet size below minimum"), s)
      else
        let open_positions := s.positions.filter (fun p => p.status = "open")
        if open_positions.length ≥ MAX_OPEN_POSITIONS then
          ((0, kf, "Max open positions reached"), s)
        else
          let total_exposure := (open_positions.map Position.size_usd).sum
          if total_exposure + bet_usd > s.bankroll * (1/2) then
            let remaining := s.bankroll * (1/2) - total_exposure
            if remaining < MIN_BET_SIZE_USD then
              ((0, kf, "Total exposure would exceed 50% of bankroll"), s)
            else ((pyRound2 (min bet_usd remaining), kf, ""), s)
          else ((pyRound2 bet_usd, kf, ""), s)

/-- Total stake of the currently open positions of a state (the
`total_exposure` read by `calculate_bet_size`). -/
def openExposure (s : RMState) : ℚ :=
  ((s.positions.filter (fun p => p.status = "open")).map Position.size_usd).sum

/-- One ledger mutation: an `open_position` or `close_position` call. -/
inductive LedgerEvent where
  | op (a : OpenArgs) : LedgerEvent
  | cl (idx : Nat) (exit_price pnl : ℚ) (reason now : String) : LedgerEvent
deriving DecidableEq, Repr

/-- Apply one ledger mutation. -/
def ledgerStep (s : RMState) : LedgerEvent → RMState
  | .op a => open_position s a
  | .cl idx ex pnl r n => close_position s idx ex pnl r n

/-- Run a sequence of open/close calls from a starting state. -/
def ledgerRun (s : RMState) : List LedgerEvent → RMState
  | [] => s
  | e :: es => ledgerRun (ledgerStep s e) es

/-- Sum of the stakes of all positions opened in the trace. -/
def openedStakes : List LedgerEvent → ℚ
  | [] => 0
  | .op a :: es => a.size_usd + openedStakes es
  | .cl _ _ _ _ _ :: es => openedStakes es

/-- Sum of `stake + pnl` over all close events of the trace, the stake
being read off the stakes of the positions present when the close
happens (initial stakes `sizes`, extended by each open). -/
def closedCredits (sizes : List ℚ) : List LedgerEvent → ℚ
  | [] => 0
  | .op a :: es => closedCredits (sizes ++ [a.size_usd]) es
  | .cl idx _ pnl _ _ :: es => (sizes.getD idx 0 + pnl) + closedCredits sizes es

/-- Every close event of the trace refers to a position that exists when
it happens (given `n` initial positions). -/
def closesValid (n : Nat) : List LedgerEvent → Prop
  | [] => True
  | .op _ :: es => closesValid (n + 1) es
  | .cl idx _ _ _ _ :: es => idx < n ∧ closesValid n es

instance (n : Nat) (es : List LedgerEvent) : Decidable (closesValid n es) := by
  induction es generalizing n with
  | nil => exact .isTrue trivial
  | cons e es ih =>
    cases e with
    | op a => exact ih _
    | cl idx ex pnl r now => exact @instDecidableAnd _ _ _ (ih n)

/-! ## BTC strategy indicators (src/btc_strategy.py) -/

/-- `np.diff`: adjacent differences of a sequence. -/
def npDiff : List ℚ → List ℚ
  | [] => []
  | [_] => []
  | a :: b :: t => (b - a) :: npDiff (b :: t)

/-- `BTCStrategy._calculate_rsi` (src/btc_strategy.py:227-243). -/
def calculate_rsi (closes : List ℚ) (period : Nat := 14) : ℚ :=
  if closes.length < period + 1 then 50
  else
    let deltas := npDiff closes
    let gains := deltas.map (fun d => if d > 0 then d else 0)
    let losses := deltas.map (fun d => if d < 0 then -d else 0)
    let avg_gain := npMean (lastSlice period gains)
    let avg_loss := npMean (lastSlice period losses)
    if avg_loss = 0 then 100
    else
      let rs := avg_gain / avg_loss
      100 - 100 / (1 + rs)

/-- The elementwise `typical_price = (highs + lows + closes) / 3.0` of
`BTCStrategy._calculate_vwap` (src/btc_strategy.py:249). -/
def typicalPrice (highs lows closes : List ℚ) : List ℚ :=
  List.zipWith (fun h lc => (h + lc.1 + lc.2) / 3) highs (lows.zip closes)

/-- `BTCStrategy._calculate_vwap` (src/btc_strategy.py:245-257). The
caller passes four equal-length kline columns; on zero total volume it
falls back to the last close (`closes[-1]`, modelled with default 0 on
an empty list, which the `len ≥ 20` guard in the caller rules out). -/
def calculate_vwap (highs lows closes volumes : List ℚ) : ℚ :=
  let typical_price := typicalPrice highs lows closes
  let n := min 60 typical_price.length
  let tp := lastSlice n typical_price
  let vol := lastSlice n volumes
  let total_vol := vol.sum
  if total_vol = 0 then closes.getLastD 0
  else ((tp.zip vol).map (fun x => x.1 * x.2)).sum / total_vol

/-- The `vwap_deviation` feature computed in `BTCStrategy.analyze_market`
(src/btc_strategy.py:79-80): `(current_price - vwap) / vwap` when
`vwap > 0`, else 0. -/
def vwap_deviation_feature (current_price : ℚ)
    (highs lows closes volumes : List ℚ) : ℚ :=
  let vwap := calculate_vwap highs lows closes volumes
  if vwap > 0 then (current_price - vwap) / vwap else 0

/-- `BTCStrategy._estimate_probability` (src/btc_strategy.py:156-223).
`normCdf` stands for `scipy.stats.norm.cdf` and `sqrt15` for
`np.sqrt(15)`: both are host primitives with irrational values, taken
here as parameters so the clamping theorem holds for every value they
could produce. -/
def estimate_probability (normCdf : ℚ → ℚ) (sqrt15 : ℚ)
    (current_price target_price : ℚ) (direction : String)
    (rsi vwap_deviation volatility momentum order_flow : ℚ) : ℚ :=
  let distance := (target_price - current_price) / current_price
  let em := volatility * sqrt15
  let expected_move := if em < 1/10000 then 1/10000 else em
  let base_prob :=
    if direction = "above" then 1 - normCdf (distance / expected_move)
    else 1 - normCdf (-distance / expected_move)
  let rsi_term :=
    if rsi < BTC_RSI_OVERSOLD then
      let rsi_adj := 5/100 * (BTC_RSI_OVERSOLD - rsi) / BTC_RSI_OVERSOLD
      if direction = "above" then rsi_adj else -rsi_adj
    else if rsi > BTC_RSI_OVERBOUGHT then
      let rsi_adj := 5/100 * (rsi - BTC_RSI_OVERBOUGHT) / (100 - BTC_RSI_OVERBOUGHT)
      if direction = "above" then -rsi_adj else rsi_adj
    else 0
  let vwap_term :=
    if |vwap_deviation| > 1/1000 then
      let vwap_adj := -vwap_deviation * (1/2)
      if direction = "above" then vwap_adj else -vwap_adj
    else 0
  let mom_adj := momentum * 10
  let mom_term := if direction = "above" then mom_adj else -mom_adj
  let flow_adj := order_flow * (3/100)
  let flow_term := if direction = "above" then flow_adj else -flow_adj
  let adjustment := rsi_term + vwap_term + mom_term + flow_term
  npClip (base_prob + adjustment) (2/100) (98/100)

/-- The recommended side, final probabilities and edge chosen by
`BTCStrategy.analyze_market` (src/btc_strategy.py:100-111):
`(side, our_prob, market_prob, edge)`. -/
def btcSelectSide (our_prob market_probability : ℚ) : String × ℚ × ℚ × ℚ :=
  let edge := our_prob - market_probability
  if edge > 0 then ("YES", our_prob, market_probability, edge)
  else if (1 - our_prob) - (1 - market_probability) > MIN_EDGE_THRESHOLD then
    let our := 1 - our_prob
    let market := 1 - market_probability
    ("NO", our, market, our - market)
  else ("YES", our_prob, market_probability, edge)

/-! ## Weather strategy (src/weather_strategy.py) -/

/-- The side selection shared verbatim by the temperature
(src/weather_strategy.py:140-145), precipitation (217-222) and snow
(291-296) analyses: `"YES" if edge > 0 else "NO"`, complementing both
probabilities and recomputing the edge on the NO side. -/
def weatherSelectSide (our_prob market_prob : ℚ) : String × ℚ × ℚ × ℚ :=
  let edge := our_prob - market_prob
  let recommended_side := if edge > 0 then "YES" else "NO"
  if recommended_side = "NO" then
    let our := 1 - our_prob
    let market := 1 - market_prob
    ("NO", our, market, our - market)
  else ("YES", our_prob, market_prob, edge)

/-- The probability produced by
`WeatherStrategy._analyze_temperature_market` (src/weather_strategy.py:
115-138) from the forecast extremes and the threshold in Celsius. -/
def analyze_temperature_prob (direction : String)
    (max_temp min_temp temp_c : ℚ) : ℚ :=
  if direction = "above" ∨ direction = "hit" then
    if max_temp > temp_c + 2 then 90/100
    else if max_temp > temp_c then
      let margin := (max_temp - temp_c) / 2
      1/2 + min (margin * (2/10)) (4/10)
    else if max_temp > temp_c - 2 then
      let margin := (temp_c - max_temp) / 2
      1/2 - min (margin * (2/10)) (4/10)
    else 10/100
  else
    if min_temp < temp_c - 2 then 90/100
    else if min_temp < temp_c then
      let margin := (temp_c - min_temp) / 2
      1/2 + min (margin * (2/10)) (4/10)
    else if min_temp < temp_c + 2 then
      let margin := (min_temp - temp_c) / 2
      1/2 - min (margin * (2/10)) (4/10)
    else 10/100

/-- The clamped probability produced by
`WeatherStrategy._analyze_precipitation_market`
(src/weather_strategy.py:200-216). `threshold_mm.getD 0 ≠ 0` mirrors
the Python truthiness test `if threshold_mm:` (both `None` and `0.0`
are falsy). -/
def analyze_precipitation_prob (threshold_mm : Option ℚ)
    (total_precip max_precip_prob avg_precip_prob : ℚ) : ℚ :=
  let our_prob :=
    if threshold_mm.getD 0 ≠ 0 then
      let t := threshold_mm.getD 0
      if total_precip > t * (3/2) then 85/100
      else if total_precip > t then 65/100
      else if total_precip > t * (1/2) then 35/100
      else 15/100
    else max_precip_prob * (7/10) + avg_precip_prob * (3/10)
  npClip our_prob (5/100) (95/100)

/-- The clamped probability produced by
`WeatherStrategy._analyze_snow_market` (src/weather_strategy.py:
276-290); the threshold is parsed in inches and converted to cm. -/
def analyze_snow_prob (snow_threshold : Option ℚ) (total_snow_cm : ℚ) : ℚ :=
  let our_prob :=
    if snow_threshold.getD 0 ≠ 0 then
      let threshold_cm := snow_threshold.getD 0 * (254/100)
      if total_snow_cm > threshold_cm * (3/2) then 85/100
      else if total_snow_cm > threshold_cm then 60/100
      else if total_snow_cm > threshold_cm * (3/10) then 30/100
      else 10/100
    else if total_snow_cm > 1/2 then min (90/100) (total_snow_cm / 5)
    else 10/100
  npClip our_prob (5/100) (95/100)

/-! ## Persistence (src/risk_manager.py:212-236) -/

/-- The dictionary produced by `dataclasses.asdict` on a `Position`:
one entry per field, in declaration order. -/
structure PosDict where
  market_id : String
  market_question : String
  token_id : String
  side : String
  entry_price : ℚ
  size_usd : ℚ
  shares : ℚ
  our_probability : ℚ
  market_probability : ℚ
  edge : ℚ
  kelly_fraction : ℚ
  strategy : String
  reasoning : String
  timestamp : String
  status : String
deriving DecidableEq, Repr

/-- `asdict(p)` for a position. -/
def positionAsDict (p : Position) : PosDict :=
  { market_id := p.market_id, market_question := p.market_question
    token_id := p.token_id, side := p.side, entry_price := p.entry_price
    size_usd := p.size_usd, shares := p.shares
    our_probability := p.our_probability
    market_probability := p.market_probability, edge := p.edge
    kelly_fraction := p.kelly_fraction, strategy := p.strategy
    reasoning := p.reasoning, timestamp := p.timestamp, status := p.status }

/-- `Position(**d)`: rebuilding a position from its dictionary. The
dataclass `__post_init__` (src/risk_manager.py:37-39) stamps the clock
value `now` when the stored timestamp is the empty string. -/
def positionFromDict (now : String) (d : PosDict) : Position :=
  { market_id := d.market_id, market_question := d.market_question
    token_id := d.token_id, side := d.side, entry_price := d.entry_price
    size_usd := d.size_usd, shares := d.shares
    our_probability := d.our_probability
    market_probability := d.market_probability, edge := d.edge
    kelly_fraction := d.kelly_fraction, strategy := d.strategy
    reasoning := d.reasoning
    timestamp := if d.timestamp = "" then now else d.timestamp
    status := d.status }

/-- The JSON snapshot written by `RiskManager._save_state`
(src/risk_manager.py:212-222): bankroll, position dictionaries, trade
history. JSON itself round-trips these values exactly. -/
structure SavedState where
  bankroll : ℚ
  positions : List PosDict
  trade_history : List CloseRecord
deriving DecidableEq, Repr

/-- `RiskManager._save_state` (src/risk_manager.py:212-222). -/
def save_state (s : RMState) : SavedState :=
  { bankroll := s.bankroll
    positions := s.positions.map positionAsDict
    trade_history := s.trade_history }

/-- `RiskManager._load_state` (src/risk_manager.py:224-236) applied to an
existing snapshot: bankroll, positions (rebuilt through `Position(**p)`
at clock value `now`) and trade history are taken from the snapshot. -/
def load_state (now : String) (saved : SavedState) : RMState :=
  { bankroll := saved.bankroll
    positions := saved.positions.map (positionFromDict now)
    trade_history := saved.trade_history }

/-! ## Helper lemmas -/

/-- `npClip` lands in `[lo, hi]` whenever `lo ≤ hi`. -/
theorem npClip_mem (x lo hi : ℚ) (h : lo ≤ hi) :
    lo ≤ npClip x lo hi ∧ npClip x lo hi ≤ hi :=
  ⟨le_max_left _ _, max_le h (min_le_left _ _)⟩

/-- Round-half-even never rounds up by more than one half. -/
theorem roundHalfEven_le (q : ℚ) : (roundHalfEven q : ℚ) ≤ q + 1/2 := by
  simp only [roundHalfEven]
  have hf := Int.floor_le q
  split_ifs with h1 h2 h3 <;> push_cast <;> linarith

/-- The Python two-decimal rounding exceeds its argument by at most half a
cent. -/
theorem pyRound2_le (x : ℚ) : pyRound2 x ≤ x + 1/200 := by
  unfold pyRound2
  have h := roundHalfEven_le (100 * x)
  linarith

/-! ## Claim theorems -/

/-- C3: `kelly_size` returns exactly 0 whenever `our_prob` or
`market_prob` lies outside the open interval (0,1), whenever the net
odds `b = 1/market_prob − 1` are non-positive, or whenever the full
Kelly fraction `(our_prob·b − (1−our_prob))/b` is non-positive. -/
theorem kelly_size_zero_conditions (our_prob market_prob fraction : ℚ)
    (h : our_prob ≤ 0 ∨ our_prob ≥ 1 ∨ market_prob ≤ 0 ∨ market_prob ≥ 1 ∨
      1 / market_prob - 1 ≤ 0 ∨
      (our_prob * (1 / market_prob - 1) - (1 - our_prob)) /
        (1 / market_prob - 1) ≤ 0) :
    kelly_size our_prob market_prob fraction = 0 := by
  simp only [kelly_size]
  split_ifs with h1 h2 h3
  · rfl
  · rfl
  · rfl
  · exfalso
    push_neg at h1
    rcases h with h | h | h | h | h | h
    · exact absurd h (not_le.mpr h1.2.2.1)
    · exact absurd h (not_le.mpr h1.2.2.2)
    · exact absurd h (not_le.mpr h1.1)
    · exact absurd h (not_le.mpr h1.2.1)
    · exact h2 h
    · exact h3 h

/-- Witness for C3 at `our_prob = 2` (outside (0,1)). -/
theorem kelly_size_zero_conditions_witness : kelly_size 2 (1/2) (1/2) = 0 :=
  kelly_size_zero_conditions 2 (1/2) (1/2) (Or.inr (Or.inl (by norm_num)))

/-- C7: at `our_prob = 0.6`, `market_prob = 0.5`, `fraction = 0.5` the
net odds are exactly 1, the full Kelly fraction exactly 0.2, and
`kelly_size` returns exactly 0.1. -/
theorem kelly_size_point_six_point_five :
    1 / (5/10 : ℚ) - 1 = 1 ∧
    ((6/10 : ℚ) * 1 - (1 - 6/10)) / 1 = 2/10 ∧
    kelly_size (6/10) (5/10) (1/2) = 1/10 := by
  refine ⟨by norm_num, by norm_num, ?_⟩
  simp only [kelly_size]
  norm_num

/-- C10: `calculate_bet_size` never mutates the `RiskManager` state —
the state after the call (bankroll, positions, trade history) is the
state before it, whether the bet is approved or rejected. -/
theorem calculate_bet_size_pure (s : RMState) (our_prob market_prob : ℚ) :
    (calculate_bet_size s our_prob market_prob).2 = s := by
  simp only [calculate_bet_size]
  split_ifs <;> rfl

/-- The BTC estimate ends in `np.clip(·, 0.02, 0.98)`, so it lies in
[0.02, 0.98] whatever `norm.cdf` and `np.sqrt(15)` evaluate to. -/
theorem estimate_probability_bounds_aux (normCdf : ℚ → ℚ)
    (sqrt15 current_price target_price : ℚ) (direction : String)
    (rsi vdev vol mom flow : ℚ) :
    2/100 ≤ estimate_probability normCdf sqrt15 current_price target_price
      direction rsi vdev vol mom flow ∧
    estimate_probability normCdf sqrt15 current_price target_price
      direction rsi vdev vol mom flow ≤ 98/100 := by
  simp only [estimate_probability]
  exact npClip_mem _ _ _ (by norm_num)

/-- The temperature bands only produce values in [0.1, 0.9], hence in
[0.05, 0.95], although this path has no explicit clip. -/
theorem analyze_temperature_prob_bounds (direction : String)
    (max_temp min_temp temp_c : ℚ) :
    5/100 ≤ analyze_temperature_prob direction max_temp min_temp temp_c ∧
    analyze_temperature_prob direction max_temp min_temp temp_c ≤ 95/100 := by
  simp only [analyze_temperature_prob]
  split_ifs with hdir h1 h2 h3 h4 h5 h6
  · exact ⟨by norm_num, by norm_num⟩
  · have hm0 : (0:ℚ) ≤ min ((max_temp - temp_c)/2 * (2/10)) (4/10) :=
      le_min (by linarith) (by norm_num)
    have hm1 := min_le_right ((max_temp - temp_c)/2 * (2/10)) (4/10)
    constructor <;> linarith
  · have hm0 : (0:ℚ) ≤ min ((temp_c - max_temp)/2 * (2/10)) (4/10) :=
      le_min (by linarith) (by norm_num)
    have hm1 := min_le_right ((temp_c - max_temp)/2 * (2/10)) (4/10)
    constructor <;> linarith
  · exact ⟨by norm_num, by norm_num⟩
  · exact ⟨by norm_num, by norm_num⟩
  · have hm0 : (0:ℚ) ≤ min ((temp_c - min_temp)/2 * (2/10)) (4/10) :=
      le_min (by linarith) (by norm_num)
    have hm1 := min_le_right ((temp_c - min_temp)/2 * (2/10)) (4/10)
    constructor <;> linarith
  · have hm0 : (0:ℚ) ≤ min ((min_temp - temp_c)/2 * (2/10)) (4/10) :=
      le_min (by linarith) (by norm_num)
    have hm1 := min_le_right ((min_temp - temp_c)/2 * (2/10)) (4/10)
    constructor <;> linarith
  · exact ⟨by norm_num, by norm_num⟩

/-- The precipitation estimate ends in `np.clip(·, 0.05, 0.95)`. -/
theorem analyze_precipitation_prob_bounds (threshold_mm : Option ℚ)
    (total_precip max_pp avg_pp : ℚ) :
    5/100 ≤ analyze_precipitation_prob threshold_mm total_precip max_pp avg_pp ∧
    analyze_precipitation_prob threshold_mm total_precip max_pp avg_pp ≤ 95/100 := by
  simp only [analyze_precipitation_prob]
  exact npClip_mem _ _ _ (by norm_num)

/-- The snowfall estimate ends in `np.clip(·, 0.05, 0.95)`. -/
theorem analyze_snow_prob_bounds (snow_threshold : Option ℚ)
    (total_snow_cm : ℚ) :
    5/100 ≤ analyze_snow_prob snow_threshold total_snow_cm ∧
    analyze_snow_prob snow_threshold total_snow_cm ≤ 95/100 := by
  simp only [analyze_snow_prob]
  exact npClip_mem _ _ _ (by norm_num)

/-- C4: for arbitrary finite inputs, the BTC price-crossing probability
estimate always lies in [0.02, 0.98], and the weather probability
estimates (temperature, precipitation, snow) always lie in
[0.05, 0.95]. -/
theorem probability_estimates_in_bounds (normCdf : ℚ → ℚ)
    (sqrt15 current_price target_price : ℚ) (direction : String)
    (rsi vdev vol mom flow : ℚ) (wdirection : String)
    (max_temp min_temp temp_c : ℚ) (threshold_mm : Option ℚ)
    (total_precip max_pp avg_pp : ℚ) (snow_threshold : Option ℚ)
    (total_snow_cm : ℚ) :
    (2/100 ≤ estimate_probability normCdf sqrt15 current_price target_price
        direction rsi vdev vol mom flow ∧
      estimate_probability normCdf sqrt15 current_price target_price
        direction rsi vdev vol mom flow ≤ 98/100) ∧
    (5/100 ≤ analyze_temperature_prob wdirection max_temp min_temp temp_c ∧
      analyze_temperature_prob wdirection max_temp min_temp temp_c ≤ 95/100) ∧
    (5/100 ≤ analyze_precipitation_prob threshold_mm total_precip max_pp avg_pp ∧
      analyze_precipitation_prob threshold_mm total_precip max_pp avg_pp ≤ 95/100) ∧
    (5/100 ≤ analyze_snow_prob snow_threshold total_snow_cm ∧
      analyze_snow_prob snow_threshold total_snow_cm ≤ 95/100) :=
  ⟨estimate_probability_bounds_aux normCdf sqrt15 current_price target_price
      direction rsi vdev vol mom flow,
    analyze_temperature_prob_bounds wdirection max_temp min_temp temp_c,
    analyze_precipitation_prob_bounds threshold_mm total_precip max_pp avg_pp,
    analyze_snow_prob_bounds snow_threshold total_snow_cm⟩

/-- C5 counterexample: in the weather paths, at
`our_prob = market_prob = 1/2` the raw edge is non-positive and the
complementary edge 0 does not exceed the minimum-edge threshold, yet the
NO side is recommended — the claim says the YES side would be kept. -/
theorem weather_side_selection_ignores_threshold :
    ((1/2 : ℚ) - 1/2 ≤ 0) ∧
    (weatherSelectSide (1/2) (1/2)).1 = "NO" ∧
    ¬((1 - (1/2 : ℚ)) - (1 - 1/2) > MIN_EDGE_THRESHOLD) := by
  refine ⟨by norm_num, ?_, by rw [MIN_EDGE_THRESHOLD]; norm_num⟩
  simp only [weatherSelectSide]
  rw [if_neg (by norm_num : ¬((1/2 : ℚ) - 1/2 > 0))]
  simp

/-- C5 amended: when the raw edge `our_prob − market_prob` is not
positive, the BTC path recommends NO with complemented probabilities and
edge exactly when the complementary edge exceeds the minimum-edge
threshold, and otherwise keeps YES with the original non-positive edge;
the weather paths always recommend NO with complemented values in this
case, regardless of the threshold. A signal is emitted either way. -/
theorem side_selection_nonpositive_edge (our_prob market_prob : ℚ)
    (h : our_prob - market_prob ≤ 0) :
    ((1 - our_prob) - (1 - market_prob) > MIN_EDGE_THRESHOLD →
      btcSelectSide our_prob market_prob =
        ("NO", 1 - our_prob, 1 - market_prob,
          (1 - our_prob) - (1 - market_prob))) ∧
    (¬((1 - our_prob) - (1 - market_prob) > MIN_EDGE_THRESHOLD) →
      btcSelectSide our_prob market_prob =
        ("YES", our_prob, market_prob, our_prob - market_prob)) ∧
    weatherSelectSide our_prob market_prob =
      ("NO", 1 - our_prob, 1 - market_prob,
        (1 - our_prob) - (1 - market_prob)) := by
  have hne : ¬(our_prob - market_prob > 0) := not_lt.mpr h
  refine ⟨fun hc => ?_, fun hc => ?_, ?_⟩
  · simp only [btcSelectSide]
    rw [if_neg hne, if_pos hc]
  · simp only [btcSelectSide]
    rw [if_neg hne, if_neg hc]
  · simp only [weatherSelectSide]
    rw [if_neg hne]
    simp

/-- Witness for C5 amended at `our_prob = market_prob = 1/2`. -/
theorem side_selection_nonpositive_edge_witness :
    ((1 - (1/2 : ℚ)) - (1 - 1/2) > MIN_EDGE_THRESHOLD →
      btcSelectSide (1/2) (1/2) =
        ("NO", 1 - (1/2 : ℚ), 1 - 1/2, (1 - (1/2 : ℚ)) - (1 - 1/2))) ∧
    (¬((1 - (1/2 : ℚ)) - (1 - 1/2) > MIN_EDGE_THRESHOLD) →
      btcSelectSide (1/2) (1/2) =
        ("YES", (1/2 : ℚ), 1/2, (1/2 : ℚ) - 1/2)) ∧
    weatherSelectSide (1/2) (1/2) =
      ("NO", 1 - (1/2 : ℚ), 1 - 1/2, (1 - (1/2 : ℚ)) - (1 - 1/2)) :=
  side_selection_nonpositive_edge (1/2) (1/2) (by norm_num)

/-- Taking the last `n` elements commutes with `map`. -/
theorem lastSlice_map (f : α → β) (n : Nat) (l : List α) :
    lastSlice n (l.map f) = (lastSlice n l).map f := by
  unfold lastSlice
  split_ifs with h
  · rfl
  · rw [List.length_map, List.map_drop]

/-- C8: the RSI is exactly 100 whenever all close-to-close deltas in the
averaging window (the last `period` deltas) are non-negative and at
least one is positive, and exactly 50 whenever fewer than `period + 1`
closes are supplied. -/
theorem rsi_extremes (closes : List ℚ) (period : Nat) :
    (closes.length < period + 1 → calculate_rsi closes period = 50) ∧
    (period + 1 ≤ closes.length →
      (∀ d ∈ lastSlice period (npDiff closes), 0 ≤ d) →
      (∃ d ∈ lastSlice period (npDiff closes), 0 < d) →
      calculate_rsi closes period = 100) := by
  constructor
  · intro h
    simp only [calculate_rsi]
    rw [if_pos h]
  · intro hlen hnn _hpos
    have hzero : npMean (lastSlice period
        ((npDiff closes).map (fun d => if d < 0 then -d else 0))) = 0 := by
      rw [lastSlice_map]
      have hz : ∀ x ∈ (lastSlice period (npDiff closes)).map
          (fun d => if d < 0 then -d else 0), x = 0 := by
        intro x hx
        obtain ⟨d, hd, rfl⟩ := List.mem_map.mp hx
        rw [if_neg (not_lt.mpr (hnn d hd))]
      unfold npMean
      rw [List.sum_eq_zero hz, zero_div]
    simp only [calculate_rsi]
    rw [if_neg (by omega), if_pos hzero]

/-- A monotone window of 15 closes for the RSI witness. -/
def rsiWitnessCloses : List ℚ := [1, 1, 1, 1, 1, 1, 1, 1, 1, 1, 1, 1, 1, 1, 2]

/-- Witness for C8: 2 closes give the neutral 50; 15 non-decreasing
closes with one strict rise give 100. -/
theorem rsi_extremes_witness :
    calculate_rsi [1, 2] 14 = 50 ∧ calculate_rsi rsiWitnessCloses 14 = 100 :=
  ⟨(rsi_extremes [1, 2] 14).1 (by norm_num),
   (rsi_extremes rsiWitnessCloses 14).2 (by norm_num [rsiWitnessCloses])
     (by norm_num [rsiWitnessCloses, npDiff, lastSlice])
     (by norm_num [rsiWitnessCloses, npDiff, lastSlice])⟩

/-- C6 counterexample: with a single bar of zero volume, last close 100
and current price 110, the total lookback volume is 0 yet the
volume-weighted deviation is 1/10, not 0. -/
theorem vwap_deviation_nonzero_on_zero_volume :
    (lastSlice (min 60 (typicalPrice [100] [100] [100]).length)
      [(0 : ℚ)]).sum = 0 ∧
    vwap_deviation_feature 110 [100] [100] [100] [0] = 1/10 ∧
    (1/10 : ℚ) ≠ 0 := by
  refine ⟨?_, ?_, by norm_num⟩
  · norm_num [typicalPrice, lastSlice]
  · norm_num [vwap_deviation_feature, calculate_vwap, typicalPrice, lastSlice]

/-- C6 amended: when the total volume over the VWAP lookback is 0, the
VWAP falls back to the last close, so the volume-weighted deviation
equals `(current_price − last_close) / last_close` when the last close
is positive, and 0 otherwise — it is not 0 in general. -/
theorem vwap_deviation_zero_volume (current_price : ℚ)
    (highs lows closes volumes : List ℚ)
    (hvol : (lastSlice (min 60 (typicalPrice highs lows closes).length)
      volumes).sum = 0) :
    vwap_deviation_feature current_price highs lows closes volumes =
      if closes.getLastD 0 > 0 then
        (current_price - closes.getLastD 0) / closes.getLastD 0
      else 0 := by
  simp only [vwap_deviation_feature, calculate_vwap]
  rw [if_pos hvol]

/-- Witness for C6 amended at the counterexample input. -/
theorem vwap_deviation_zero_volume_witness :
    vwap_deviation_feature 110 [100] [100] [100] [0] =
      if ([(100 : ℚ)]).getLastD 0 > 0 then
        ((110 : ℚ) - ([(100 : ℚ)]).getLastD 0) / ([(100 : ℚ)]).getLastD 0
      else 0 :=
  vwap_deviation_zero_volume 110 [100] [100] [100] [0]
    (by norm_num [typicalPrice, lastSlice])

/-- An open position with stake \$45.135, used by the C2
counterexample. -/
def exposurePos : Position :=
  { market_id := "m1", market_question := "q", token_id := "t"
    side := "YES", entry_price := 1/2, size_usd := 9027/200
    shares := 9027/100, our_probability := 6/10
    market_probability := 1/2, edge := 1/10, kelly_fraction := 1/10
    strategy := "btc", reasoning := "r", timestamp := "ts"
    status := "open" }

/-- Bankroll \$100.30 with one open \$45.135 position. -/
def c2State : RMState :=
  { bankroll := 1003/10, positions := [exposurePos], trade_history := [] }

/-- C2 counterexample: at bankroll 100.30 with 45.135 of open exposure
and `(our_prob, market_prob) = (0.6, 0.5)`, the bet is approved and the
two-decimal rounding returns \$5.02, which exceeds both
`bankroll × MAX_SINGLE_BET_PCT = 5.015` and the 50% exposure headroom
(45.135 + 5.02 = 50.155 > 50.15). -/
theorem calculate_bet_size_exceeds_caps :
    (calculate_bet_size c2State (6/10) (5/10)).1.2.2 = "" ∧
    (calculate_bet_size c2State (6/10) (5/10)).1.1 >
      c2State.bankroll * MAX_SINGLE_BET_PCT ∧
    openExposure c2State + (calculate_bet_size c2State (6/10) (5/10)).1.1 >
      c2State.bankroll * (1/2) := by
  norm_num [calculate_bet_size, c2State, exposurePos, kelly_size,
    openExposure, MAX_SINGLE_BET_PCT, MIN_EDGE_THRESHOLD,
    MAX_OPEN_POSITIONS, MIN_BET_SIZE_USD, KELLY_FRACTION, pyRound2,
    roundHalfEven, List.filter]

/-- C2 amended: whenever `calculate_bet_size` approves a bet (empty
rejection reason), the stake before the final two-decimal rounding never
exceeds `bankroll × MAX_SINGLE_BET_PCT` nor the 50% exposure headroom;
the returned stake is that value rounded to cents and can therefore
exceed either bound by at most 0.005. -/
theorem calculate_bet_size_bounds (s : RMState) (our_prob market_prob : ℚ)
    (happr : (calculate_bet_size s our_prob market_prob).1.2.2 = "") :
    (calculate_bet_size s our_prob market_prob).1.1 ≤
      s.bankroll * MAX_SINGLE_BET_PCT + 1/200 ∧
    openExposure s + (calculate_bet_size s our_prob market_prob).1.1 ≤
      s.bankroll * (1/2) + 1/200 := by
  simp only [calculate_bet_size, openExposure] at happr ⊢
  set kf := kelly_size our_prob market_prob with hkf
  set E := (List.map Position.size_usd
    (List.filter (fun p => decide (p.status = "open")) s.positions)).sum with hE
  set mb := s.bankroll * MAX_SINGLE_BET_PCT with hmb
  set b0 := s.bankroll * kf with hb0
  set R := s.bankroll * (1/2) - E with hR
  clear_value kf E mb b0 R
  split_ifs at happr ⊢ with h1 h2 h3 h4 h5 h6 h7 h8 h9 h10 h11
  all_goals try { exfalso; simp at happr }
  all_goals try dsimp only at happr ⊢
  · exact ⟨by linarith [pyRound2_le (mb ⊓ R), (inf_le_left : mb ⊓ R ≤ mb)],
      by linarith [pyRound2_le (mb ⊓ R), (inf_le_right : mb ⊓ R ≤ R)]⟩
  · exact ⟨by linarith [pyRound2_le mb],
      by linarith [pyRound2_le mb]⟩
  · exact ⟨by linarith [pyRound2_le (b0 ⊓ R), (inf_le_left : b0 ⊓ R ≤ b0)],
      by linarith [pyRound2_le (b0 ⊓ R), (inf_le_right : b0 ⊓ R ≤ R)]⟩
  · exact ⟨by linarith [pyRound2_le b0],
      by linarith [pyRound2_le b0]⟩

/-- Witness for C2 amended: bankroll 1000, no open positions,
`(our_prob, market_prob) = (0.6, 0.5)` — the bet is approved at \$50. -/
theorem calculate_bet_size_bounds_witness :
    (calculate_bet_size ⟨1000, [], []⟩ (6/10) (5/10)).1.1 ≤
      (1000 : ℚ) * MAX_SINGLE_BET_PCT + 1/200 ∧
    openExposure ⟨1000, [], []⟩ +
      (calculate_bet_size ⟨1000, [], []⟩ (6/10) (5/10)).1.1 ≤
      (1000 : ℚ) * (1/2) + 1/200 :=
  calculate_bet_size_bounds ⟨1000, [], []⟩ (6/10) (5/10)
    (by norm_num [calculate_bet_size, kelly_size, MIN_EDGE_THRESHOLD,
      KELLY_FRACTION, MAX_SINGLE_BET_PCT, MIN_BET_SIZE_USD,
      MAX_OPEN_POSITIONS, List.filter])

/-- Rebuilding a position from its `asdict` image is the identity as
long as the stored timestamp is non-empty (so `__post_init__` does not
re-stamp it). -/
theorem fromDict_asDict (now : String) (p : Position)
    (h : p.timestamp ≠ "") :
    positionFromDict now (positionAsDict p) = p := by
  simp only [positionFromDict, positionAsDict]
  rw [if_neg h]

/-- Mapping the round trip over a list of positions with non-empty
timestamps is the identity. -/
theorem map_fromDict_asDict (now : String) :
    ∀ l : List Position, (∀ p ∈ l, p.timestamp ≠ "") →
      (l.map positionAsDict).map (positionFromDict now) = l := by
  intro l
  induction l with
  | nil => intro _; rfl
  | cons p t ih =>
    intro h
    simp only [List.map_cons]
    rw [fromDict_asDict now p (h p (List.mem_cons_self p t)),
      ih (fun q hq => h q (List.mem_cons_of_mem p hq))]

/-- C9: saving a `RiskManager` state and reloading the snapshot
reproduces the same bankroll and the same ordered, field-for-field
identical position list, for every state whose positions carry a
non-empty timestamp (true of every position the manager ever creates,
since `__post_init__` stamps the creation time). -/
theorem state_round_trip (s : RMState) (now : String)
    (h : ∀ p ∈ s.positions, p.timestamp ≠ "") :
    (load_state now (save_state s)).bankroll = s.bankroll ∧
    (load_state now (save_state s)).positions = s.positions := by
  refine ⟨rfl, ?_⟩
  simp only [load_state, save_state]
  exact map_fromDict_asDict now s.positions h

/-- A position with a non-empty timestamp for the C9 witness. -/
def c9Pos : Position :=
  { market_id := "mkt", market_question := "will it rain", token_id := "tok"
    side := "YES", entry_price := 4/10, size_usd := 50, shares := 125
    our_probability := 65/100, market_probability := 1/2, edge := 15/100
    kelly_fraction := 15/100, strategy := "weather", reasoning := "fc"
    timestamp := "2026-10-12T00:00:00+00:00", status := "open" }

/-- A concrete ledger state for the C9 witness. -/
def c9State : RMState :=
  { bankroll := 950, positions := [c9Pos], trade_history := [] }

/-- Witness for C9 at a concrete one-position state. -/
theorem state_round_trip_witness :
    (load_state "later" (save_state c9State)).bankroll = c9State.bankroll ∧
    (load_state "later" (save_state c9State)).positions = c9State.positions :=
  state_round_trip c9State "later"
    (by intro p hp; simp only [c9State, c9Pos, List.mem_singleton] at hp; subst hp; decide)

/-- Updating one element without changing its stake leaves the stake
list unchanged. -/
theorem map_size_set (l : List Position) (idx : Nat) (p q : Position)
    (hget : l.get? idx = some p) (hsz : q.size_usd = p.size_usd) :
    (l.set idx q).map Position.size_usd = l.map Position.size_usd := by
  induction l generalizing idx with
  | nil => rfl
  | cons a t ih =>
    cases idx with
    | zero =>
      simp only [List.get?] at hget
      obtain rfl : a = p := by injection hget
      simp [List.set, hsz]
    | succ i =>
      simp only [List.get?] at hget
      simp [List.set, ih i hget]

/-- The stake stored at a valid index of the stake list. -/
theorem map_size_getD (l : List Position) (idx : Nat) (p : Position)
    (hget : l.get? idx = some p) :
    (l.map Position.size_usd).getD idx 0 = p.size_usd := by
  have h2 : l[idx]? = some p := by rw [← List.get?_eq_getElem?]; exact hget
  simp [List.getD_eq_getElem?_getD, List.getElem?_map, h2]

/-- `close_position` at a valid index credits `stake + pnl` and keeps
every stake (it only flips the status of the closed position). -/
theorem close_position_effect (s : RMState) (idx : Nat) (ex pnl : ℚ)
    (r n : String) (p : Position) (hget : s.positions.get? idx = some p) :
    (close_position s idx ex pnl r n).bankroll = s.bankroll + p.size_usd + pnl ∧
    (close_position s idx ex pnl r n).positions.map Position.size_usd =
      s.positions.map Position.size_usd := by
  unfold close_position
  rw [hget]
  exact ⟨rfl, map_size_set s.positions idx p _ hget rfl⟩

/-- The trace form of the bankroll invariant, by induction over the
event list. -/
theorem ledgerRun_bankroll (es : List LedgerEvent) : ∀ s : RMState,
    closesValid s.positions.length es →
    (ledgerRun s es).bankroll = s.bankroll - openedStakes es +
      closedCredits (s.positions.map Position.size_usd) es := by
  induction es with
  | nil =>
    intro s _
    simp only [ledgerRun, openedStakes, closedCredits]
    ring
  | cons e t ih =>
    intro s hv
    cases e with
    | op a =>
      simp only [ledgerRun, ledgerStep, openedStakes, closedCredits]
      have hlen : (open_position s a).positions.length = s.positions.length + 1 := by
        simp [open_position]
      have hmap : (open_position s a).positions.map Position.size_usd =
          s.positions.map Position.size_usd ++ [a.size_usd] := by
        simp [open_position, mkPosition]
      have hv2 : closesValid (open_position s a).positions.length t := by
        rw [hlen]; exact hv
      rw [ih (open_position s a) hv2, hmap]
      have hb : (open_position s a).bankroll = s.bankroll - a.size_usd := rfl
      rw [hb]
      ring
    | cl idx ex pnl r n =>
      simp only [closesValid] at hv
      obtain ⟨hidx, hvt⟩ := hv
      have hget : s.positions.get? idx = some (s.positions.get ⟨idx, hidx⟩) :=
        List.get?_eq_get hidx
      obtain ⟨hb, hmap⟩ := close_position_effect s idx ex pnl r n _ hget
      simp only [ledgerRun, ledgerStep, openedStakes, closedCredits]
      have hlen : (close_position s idx ex pnl r n).positions.length =
          s.positions.length := by
        have := congrArg List.length hmap
        simpa using this
      have hv2 : closesValid (close_position s idx ex pnl r n).positions.length t := by
        rw [hlen]; exact hvt
      rw [ih (close_position s idx ex pnl r n) hv2, hmap, hb,
        map_size_getD s.positions idx _ hget]
      ring

/-- C1: opening a position debits the bankroll by exactly the stake;
closing one credits it by exactly `stake + pnl`; and over any sequence
of open/close calls whose closes refer to existing positions, the final
bankroll equals the initial bankroll minus the sum of the stakes opened
plus the sum of `stake + pnl` over the closes. -/
theorem bankroll_accounting (s : RMState) (es : List LedgerEvent)
    (a : OpenArgs) (idx : Nat) (ex pnl : ℚ) (r n : String) (p : Position)
    (hget : s.positions.get? idx = some p)
    (hv : closesValid s.positions.length es) :
    (open_position s a).bankroll = s.bankroll - a.size_usd ∧
    (close_position s idx ex pnl r n).bankroll = s.bankroll + p.size_usd + pnl ∧
    (ledgerRun s es).bankroll = s.bankroll - openedStakes es +
      closedCredits (s.positions.map Position.size_usd) es :=
  ⟨rfl, (close_position_effect s idx ex pnl r n p hget).1,
    ledgerRun_bankroll es s hv⟩

/-- The open position of the C1 witness state. -/
def c1Pos : Position :=
  { market_id := "m0", market_question := "q0", token_id := "t0"
    side := "YES", entry_price := 1/2, size_usd := 100, shares := 200
    our_probability := 6/10, market_probability := 1/2, edge := 1/10
    kelly_fraction := 1/10, strategy := "btc", reasoning := "r0"
    timestamp := "ts0", status := "open" }

/-- A ledger state holding one open position of stake 100. -/
def c1State : RMState :=
  { bankroll := 900, positions := [c1Pos], trade_history := [] }

/-- Arguments of an `open_position` call for the C1 witness. -/
def c1Open : OpenArgs :=
  { market_id := "m1", market_question := "q1", token_id := "t1"
    side := "NO", entry_price := 2/10, size_usd := 30, our_prob := 3/10
    market_prob := 2/10, strategy := "weather", reasoning := "r1"
    timestamp := "ts1" }

/-- A trace for the C1 witness: open a 30-stake position, then close
the pre-existing position 0 at pnl 20, then close position 1 at
pnl −30. -/
def c1Events : List LedgerEvent :=
  [.op c1Open, .cl 0 (8/10) 20 "won" "tc0", .cl 1 0 (-30) "lost" "tc1"]

/-- Witness for C1 on the concrete state and trace. -/
theorem bankroll_accounting_witness :
    (open_position c1State c1Open).bankroll = c1State.bankroll - c1Open.size_usd ∧
    (close_position c1State 0 (8/10) 20 "won" "tc0").bankroll =
      c1State.bankroll + c1Pos.size_usd + 20 ∧
    (ledgerRun c1State c1Events).bankroll = c1State.bankroll -
      openedStakes c1Events +
      closedCredits (c1State.positions.map Position.size_usd) c1Events :=
  bankroll_accounting c1State c1Events c1Open 0 (8/10) 20 "won" "tc0" c1Pos
    (by simp [c1State]) (by simp [c1State, c1Events, closesValid])

end Polly
